import Mathlib

/-!
Verification of the Pulser excerpt consisting of
`pulser-core/pulser/json/abstract_repr/validation.py` and
`pulser-core/pulser/channels/dmm.py`.

The Python values manipulated by `resolve_references` are JSON-like trees
(dicts, lists, scalars).  Python dicts are modelled as association lists with
unique keys (a faithfulness hypothesis stated explicitly where a proof needs
it); dict operations (`pop`, `update`, lookup, membership) are modelled by
the corresponding first-match association-list operations.  Python floats are
modelled as exact rationals, with numpy's round-half-to-even rounding made
explicit.  Exceptions are modelled with `Except`.
-/

/-- Shallow model of the Python values handled by `resolve_references`:
JSON-like trees of dicts, lists and scalars. -/
inductive JSON where
  | null : JSON
  | bool (b : Bool) : JSON
  | num (q : ℚ) : JSON
  | str (s : String) : JSON
  | arr (items : List JSON) : JSON
  | obj (fields : List (String × JSON)) : JSON

/-- Field list of a Python dict node, in insertion order. -/
abbrev Fields := List (String × JSON)

/-- Model of the module-level `registry` dict of `validation.py` (string keys,
dict-valued fragments). -/
abbrev Registry := List (String × Fields)

/-- Python `schema[key]` / `key in schema` on a dict: first-match lookup
(Python dicts have unique keys, so first match is the match). -/
def lookupObj : Fields → String → Option JSON
  | [], _ => none
  | (k, v) :: rest, key => if k = key then some v else lookupObj rest key

/-- Python `registry[v]` / `v in registry` on the registry dict. -/
def lookupReg : Registry → String → Option Fields
  | [], _ => none
  | (k, v) :: rest, key => if k = key then some v else lookupReg rest key

/-- Python `schema.pop(key)`, key-removal part: removes the (unique) binding
of `key`, keeping all other bindings in order. -/
def eraseKey : Fields → String → Fields
  | [], _ => []
  | (k, v) :: rest, key => if k = key then rest else (k, v) :: eraseKey rest key

/-- Python `d[key] = v`: replace the value at `key` in place if present,
else append the new binding at the end. -/
def setKey : Fields → String → JSON → Fields
  | [], key, v => [(key, v)]
  | (k, w) :: rest, key, v =>
      if k = key then (key, v) :: rest else (k, w) :: setKey rest key v

/-- Python `schema.update(**fragment)` (validation.py line 39): assign each
binding of `fragment` into the base dict, fragment values winning. -/
def dictUpdate (base : Fields) : Fields → Fields
  | [] => base
  | (k, v) :: rest => dictUpdate (setKey base k v) rest

mutual
/-- Shallow embedding of `resolve_references` (validation.py lines 35-49).
If a dict node carries a `$ref` key whose value is a registry key, the
`$ref` binding is popped and the registry fragment is merged in, and the node
is returned without further recursion; otherwise dict values and list items
are resolved recursively and scalars are returned unchanged.  The Python
function mutates the node in place and returns it; this embedding returns
the same resulting value.  The membership test of the `$ref` value against
the registry hashes that value, so on a node with a dict- or list-valued
`$ref` the real guard raises TypeError; this total function collapses that
error path into the recursive branch, and `resolveChecked` further below
models it faithfully — the theorems stated about this total function either
restrict the relevant `$ref` values to strings by hypothesis or concern the
reference branch, which tests no other value. -/
def resolve_references (registry : Registry) : JSON → JSON
  | .obj fields =>
      match lookupObj fields "$ref" with
      | some (.str v) =>
          match lookupReg registry v with
          | some fragment => .obj (dictUpdate (eraseKey fields "$ref") fragment)
          | none => .obj (resolveFields registry fields)
      | _ => .obj (resolveFields registry fields)
  | .arr items => .arr (resolveItems registry items)
  | other => other

/-- List part of `resolve_references` (validation.py line 47). -/
def resolveItems (registry : Registry) : List JSON → List JSON
  | [] => []
  | item :: rest => resolve_references registry item :: resolveItems registry rest

/-- Dict-comprehension part of `resolve_references` (validation.py
lines 42-45). -/
def resolveFields (registry : Registry) : Fields → Fields
  | [] => []
  | (k, v) :: rest => (k, resolve_references registry v) :: resolveFields registry rest
end

/-- A dict node is a resolvable reference node when it has a `$ref` key whose
value is a string that is a key of the registry — exactly the guard on
validation.py line 37. -/
def refNodeResolvable (registry : Registry) (fields : Fields) : Bool :=
  match lookupObj fields "$ref" with
  | some (.str v) => (lookupReg registry v).isSome
  | _ => false

mutual
/-- Does the document still contain a mapping node with a `$ref` key whose
value is a key of the registry? -/
def hasResolvableRef (registry : Registry) : JSON → Bool
  | .obj fields =>
      refNodeResolvable registry fields || hasResolvableRefFields registry fields
  | .arr items => hasResolvableRefItems registry items
  | _ => false

/-- List part of `hasResolvableRef`. -/
def hasResolvableRefItems (registry : Registry) : List JSON → Bool
  | [] => false
  | item :: rest =>
      hasResolvableRef registry item || hasResolvableRefItems registry rest

/-- Dict part of `hasResolvableRef` (checks the values of every binding). -/
def hasResolvableRefFields (registry : Registry) : Fields → Bool
  | [] => false
  | (_, v) :: rest =>
      hasResolvableRef registry v || hasResolvableRefFields registry rest
end

mutual
/-- Every `$ref` binding anywhere in the document has a string value that is
a key of the registry. -/
def allRefsResolvable (registry : Registry) : JSON → Bool
  | .obj fields =>
      (match lookupObj fields "$ref" with
        | none => true
        | some (.str v) => (lookupReg registry v).isSome
        | some _ => false)
      && allRefsResolvableFields registry fields
  | .arr items => allRefsResolvableItems registry items
  | _ => true

/-- List part of `allRefsResolvable`. -/
def allRefsResolvableItems (registry : Registry) : List JSON → Bool
  | [] => true
  | item :: rest =>
      allRefsResolvable registry item && allRefsResolvableItems registry rest

/-- Dict part of `allRefsResolvable`. -/
def allRefsResolvableFields (registry : Registry) : Fields → Bool
  | [] => true
  | (_, v) :: rest =>
      allRefsResolvable registry v && allRefsResolvableFields registry rest
end

mutual
/-- Every mapping node of the document that carries a `$ref` key carries no
other key. -/
def refNodesSingleton : JSON → Bool
  | .obj fields =>
      ((lookupObj fields "$ref").isNone || fields.length == 1)
      && refNodesSingletonFields fields
  | .arr items => refNodesSingletonItems items
  | _ => true

/-- List part of `refNodesSingleton`. -/
def refNodesSingletonItems : List JSON → Bool
  | [] => true
  | item :: rest => refNodesSingleton item && refNodesSingletonItems rest

/-- Dict part of `refNodesSingleton`. -/
def refNodesSingletonFields : Fields → Bool
  | [] => true
  | (_, v) :: rest => refNodesSingleton v && refNodesSingletonFields rest
end

/-- Registry well-formedness: each fragment is a Python dict (unique keys)
and, viewed as a mapping node, contains no resolvable reference. -/
def fragsOK (registry : Registry) : Prop :=
  ∀ p ∈ registry,
    (p.2.map Prod.fst).Nodup ∧ hasResolvableRef registry (.obj p.2) = false

/-- Field list of a mapping node (used to state properties of the node
returned by `resolve_references`). -/
def objFields : JSON → Fields
  | .obj fields => fields
  | _ => []

/-- Scalar (non-dict, non-list) Python values, returned unchanged by
`resolve_references` (validation.py line 49). -/
def isScalar : JSON → Bool
  | .obj _ => false
  | .arr _ => false
  | _ => true

/-! Lemmas about the dict operations. -/

theorem lookupObj_eq_none_iff (fs : Fields) (k : String) :
    lookupObj fs k = none ↔ k ∉ fs.map Prod.fst := by
  induction fs with
  | nil => simp [lookupObj]
  | cons p rest ih =>
      obtain ⟨k1, v1⟩ := p
      by_cases h : k1 = k <;> simp [lookupObj, h, ih, Ne.symm]

theorem lookupObj_setKey_self (fs : Fields) (k : String) (v : JSON) :
    lookupObj (setKey fs k v) k = some v := by
  induction fs with
  | nil => simp [setKey, lookupObj]
  | cons p rest ih =>
      obtain ⟨k1, v1⟩ := p
      by_cases h : k1 = k <;> simp [setKey, lookupObj, h, ih]

theorem lookupObj_setKey_ne (fs : Fields) (k k' : String) (v : JSON)
    (h : k' ≠ k) : lookupObj (setKey fs k v) k' = lookupObj fs k' := by
  induction fs with
  | nil => simp [setKey, lookupObj, Ne.symm h]
  | cons p rest ih =>
      obtain ⟨k1, v1⟩ := p
      by_cases h1 : k1 = k
      · subst h1; simp [setKey, lookupObj, Ne.symm h]
      · by_cases h2 : k1 = k' <;> simp [setKey, lookupObj, h1, h2, ih, h]

theorem lookupObj_dictUpdate_of_not_mem (frag : Fields) (base : Fields)
    (k : String) (h : k ∉ frag.map Prod.fst) :
    lookupObj (dictUpdate base frag) k = lookupObj base k := by
  induction frag generalizing base with
  | nil => rfl
  | cons p rest ih =>
      obtain ⟨k1, v1⟩ := p
      simp only [List.map_cons, List.mem_cons] at h
      push_neg at h
      rw [dictUpdate, ih _ h.2, lookupObj_setKey_ne _ _ _ _ h.1]

theorem lookupObj_dictUpdate_of_lookup (frag : Fields) (base : Fields)
    (k : String) (w : JSON) (hnodup : (frag.map Prod.fst).Nodup)
    (h : lookupObj frag k = some w) :
    lookupObj (dictUpdate base frag) k = some w := by
  induction frag generalizing base with
  | nil => simp [lookupObj] at h
  | cons p rest ih =>
      obtain ⟨k1, v1⟩ := p
      simp only [List.map_cons, List.nodup_cons] at hnodup
      rw [lookupObj] at h
      by_cases hk : k1 = k
      · subst hk
        rw [if_pos rfl] at h
        injection h with h2
        subst h2
        rw [dictUpdate, lookupObj_dictUpdate_of_not_mem _ _ _ hnodup.1,
          lookupObj_setKey_self]
      · rw [if_neg hk] at h
        exact ih _ hnodup.2 h

theorem setKey_of_not_mem (fs : Fields) (k : String) (v : JSON)
    (h : k ∉ fs.map Prod.fst) : setKey fs k v = fs ++ [(k, v)] := by
  induction fs with
  | nil => rfl
  | cons p rest ih =>
      obtain ⟨k1, v1⟩ := p
      simp only [List.map_cons, List.mem_cons] at h
      push_neg at h
      rw [setKey, if_neg (fun hh => h.1 hh.symm), ih h.2, List.cons_append]

theorem dictUpdate_of_disjoint (frag : Fields) (base : Fields)
    (hnodup : (frag.map Prod.fst).Nodup)
    (hdisj : ∀ k ∈ frag.map Prod.fst, k ∉ base.map Prod.fst) :
    dictUpdate base frag = base ++ frag := by
  induction frag generalizing base with
  | nil => simp [dictUpdate]
  | cons p rest ih =>
      obtain ⟨k1, v1⟩ := p
      simp only [List.map_cons, List.nodup_cons] at hnodup
      rw [dictUpdate, setKey_of_not_mem _ _ _ (hdisj k1 (by simp)), ih _ hnodup.2]
      · simp
      · intro k hk
        simp only [List.map_append, List.mem_append]
        push_neg
        refine ⟨hdisj k (by simp [hk]), ?_⟩
        simp only [List.map_cons, List.map_nil, List.mem_singleton]
        intro hkk
        subst hkk
        exact hnodup.1 hk

theorem dictUpdate_nil_left (frag : Fields)
    (hnodup : (frag.map Prod.fst).Nodup) : dictUpdate [] frag = frag := by
  rw [dictUpdate_of_disjoint frag [] hnodup (by simp)]
  rfl

theorem lookupObj_eraseKey_self (fs : Fields) (k : String)
    (hnodup : (fs.map Prod.fst).Nodup) : lookupObj (eraseKey fs k) k = none := by
  induction fs with
  | nil => rfl
  | cons p rest ih =>
      obtain ⟨k1, v1⟩ := p
      simp only [List.map_cons, List.nodup_cons] at hnodup
      by_cases h : k1 = k
      · subst h
        rw [eraseKey, if_pos rfl, lookupObj_eq_none_iff]
        exact hnodup.1
      · rw [eraseKey, if_neg h, lookupObj, if_neg h]
        exact ih hnodup.2

theorem lookupObj_eraseKey_ne (fs : Fields) (k k' : String) (h : k' ≠ k) :
    lookupObj (eraseKey fs k) k' = lookupObj fs k' := by
  induction fs with
  | nil => rfl
  | cons p rest ih =>
      obtain ⟨k1, v1⟩ := p
      by_cases h1 : k1 = k
      · subst h1
        rw [eraseKey, if_pos rfl, lookupObj, if_neg (fun hh => h hh.symm)]
      · rw [eraseKey, if_neg h1, lookupObj, lookupObj]
        by_cases h2 : k1 = k' <;> simp [h2, ih]

theorem lookupObj_resolveFields (registry : Registry) (fs : Fields) (k : String) :
    lookupObj (resolveFields registry fs) k
      = (lookupObj fs k).map (resolve_references registry) := by
  induction fs with
  | nil => rfl
  | cons p rest ih =>
      obtain ⟨k1, v1⟩ := p
      rw [resolveFields, lookupObj, lookupObj]
      by_cases h : k1 = k <;> simp [h, ih]

theorem lookupReg_mem (registry : Registry) (v : String) (frag : Fields)
    (h : lookupReg registry v = some frag) : (v, frag) ∈ registry := by
  induction registry with
  | nil => simp [lookupReg] at h
  | cons p rest ih =>
      obtain ⟨k1, v1⟩ := p
      rw [lookupReg] at h
      by_cases hk : k1 = v
      · subst hk
        rw [if_pos rfl] at h
        injection h with h2
        subst h2
        exact List.mem_cons_self _ _
      · rw [if_neg hk] at h
        exact List.mem_cons_of_mem _ (ih h)

/-! Equations characterising `resolve_references` on a dict node, one per
branch of the guard on validation.py lines 37-45. -/

theorem resolve_obj_ref (registry : Registry) (fields : Fields) (v : String)
    (frag : Fields) (hlk : lookupObj fields "$ref" = some (.str v))
    (hregv : lookupReg registry v = some frag) :
    resolve_references registry (.obj fields)
      = .obj (dictUpdate (eraseKey fields "$ref") frag) := by
  simp only [resolve_references, hlk, hregv]

theorem resolve_obj_noref (registry : Registry) (fields : Fields)
    (hlk : lookupObj fields "$ref" = none) :
    resolve_references registry (.obj fields)
      = .obj (resolveFields registry fields) := by
  simp only [resolve_references, hlk]

theorem resolve_obj_unresolved (registry : Registry) (fields : Fields)
    (v : String) (hlk : lookupObj fields "$ref" = some (.str v))
    (hregv : lookupReg registry v = none) :
    resolve_references registry (.obj fields)
      = .obj (resolveFields registry fields) := by
  simp only [resolve_references, hlk, hregv]

theorem resolve_obj_nonstr_ref (registry : Registry) (fields : Fields)
    (w : JSON) (hlk : lookupObj fields "$ref" = some w)
    (hw : ∀ s, w ≠ .str s) :
    resolve_references registry (.obj fields)
      = .obj (resolveFields registry fields) := by
  cases w with
  | str s => exact absurd rfl (hw s)
  | null => simp only [resolve_references, hlk]
  | bool b => simp only [resolve_references, hlk]
  | num q => simp only [resolve_references, hlk]
  | arr items => simp only [resolve_references, hlk]
  | obj fs => simp only [resolve_references, hlk]

mutual
/-- Auxiliary induction for C1: if every `$ref` value of the document is a
registry key, every `$ref` node is a singleton dict, and registry fragments
are reference-free dicts, then the resolved document has no resolvable
`$ref` left. -/
theorem resolveClearsAux (registry : Registry) (hreg : fragsOK registry) :
    ∀ j : JSON, allRefsResolvable registry j = true → refNodesSingleton j = true →
      hasResolvableRef registry (resolve_references registry j) = false
  | .null, _, _ => rfl
  | .bool b, _, _ => rfl
  | .num q, _, _ => rfl
  | .str s, _, _ => rfl
  | .arr items, h1, h2 => resolveClearsAuxItems registry hreg items h1 h2
  | .obj fields, h1, h2 => by
      rw [allRefsResolvable, Bool.and_eq_true_iff] at h1
      obtain ⟨htop, hfields⟩ := h1
      rw [refNodesSingleton, Bool.and_eq_true_iff] at h2
      obtain ⟨hsing, hsingf⟩ := h2
      cases hlk : lookupObj fields "$ref" with
      | none =>
          rw [resolve_obj_noref registry fields hlk, hasResolvableRef,
            Bool.or_eq_false_iff]
          refine ⟨?_, resolveClearsAuxFields registry hreg fields hfields hsingf⟩
          rw [refNodeResolvable, lookupObj_resolveFields, hlk]
          rfl
      | some w =>
          cases w with
          | str v =>
              rw [hlk] at htop
              have htop' : (lookupReg registry v).isSome = true := htop
              rw [Option.isSome_iff_exists] at htop'
              obtain ⟨frag, hregv⟩ := htop'
              rw [hlk] at hsing
              have hlen : fields.length = 1 := by simpa using hsing
              obtain ⟨⟨k0, w0⟩, rfl⟩ := List.length_eq_one.mp hlen
              rw [lookupObj] at hlk
              by_cases hk0 : k0 = "$ref"
              · subst hk0
                rw [if_pos rfl] at hlk
                rw [resolve_obj_ref registry _ v frag (by rw [lookupObj, if_pos rfl, hlk]) hregv]
                have herase : eraseKey [("$ref", w0)] "$ref" = [] := by
                  rw [eraseKey, if_pos rfl]
                obtain ⟨hnodupF, hfragclean⟩ :=
                  hreg _ (lookupReg_mem registry v frag hregv)
                rw [herase, dictUpdate_nil_left frag hnodupF]
                exact hfragclean
              · rw [if_neg hk0] at hlk
                exact absurd hlk (by simp [lookupObj])
          | null => rw [hlk] at htop; exact Bool.noConfusion htop
          | bool b => rw [hlk] at htop; exact Bool.noConfusion htop
          | num q => rw [hlk] at htop; exact Bool.noConfusion htop
          | arr items => rw [hlk] at htop; exact Bool.noConfusion htop
          | obj fs => rw [hlk] at htop; exact Bool.noConfusion htop

/-- List part of the C1 induction. -/
theorem resolveClearsAuxItems (registry : Registry) (hreg : fragsOK registry) :
    ∀ items : List JSON, allRefsResolvableItems registry items = true →
      refNodesSingletonItems items = true →
      hasResolvableRefItems registry (resolveItems registry items) = false
  | [], _, _ => rfl
  | item :: rest, h1, h2 => by
      rw [allRefsResolvableItems, Bool.and_eq_true_iff] at h1
      rw [refNodesSingletonItems, Bool.and_eq_true_iff] at h2
      rw [resolveItems, hasResolvableRefItems, Bool.or_eq_false_iff]
      exact ⟨resolveClearsAux registry hreg item h1.1 h2.1,
        resolveClearsAuxItems registry hreg rest h1.2 h2.2⟩

/-- Dict part of the C1 induction. -/
theorem resolveClearsAuxFields (registry : Registry) (hreg : fragsOK registry) :
    ∀ fields : Fields, allRefsResolvableFields registry fields = true →
      refNodesSingletonFields fields = true →
      hasResolvableRefFields registry (resolveFields registry fields) = false
  | [], _, _ => rfl
  | (k, v) :: rest, h1, h2 => by
      rw [allRefsResolvableFields, Bool.and_eq_true_iff] at h1
      rw [refNodesSingletonFields, Bool.and_eq_true_iff] at h2
      rw [resolveFields, hasResolvableRefFields, Bool.or_eq_false_iff]
      exact ⟨resolveClearsAux registry hreg v h1.1 h2.1,
        resolveClearsAuxFields registry hreg rest h1.2 h2.2⟩
end

/-! Claim C1. -/

/-- Registry for the C1 counterexample: fragment "a" itself contains a
resolvable reference to "b". -/
def regC1 : Registry := [("a", [("$ref", JSON.str "b")]), ("b", [])]

/-- Document for the C1 counterexample: a reference node with a sibling key
whose value is itself a resolvable reference node. -/
def docC1 : JSON :=
  .obj [("$ref", .str "a"), ("x", .obj [("$ref", .str "b")])]

/-- C1 (counterexample): the claim fails as stated.  In `docC1` every `$ref`
value ("a" and "b") is a key of `regC1`, yet the document returned by
`resolve_references` still contains mapping nodes with a `$ref` key whose
value is a key of the registry: the sibling node under "x" is returned
unmerged, and the fragment merged for "a" re-introduces a resolvable
`$ref` binding. -/
theorem c1_counterexample :
    allRefsResolvable regC1 docC1 = true
      ∧ hasResolvableRef regC1 (resolve_references regC1 docC1) = true :=
  ⟨rfl, rfl⟩

/-- C1 (amended): for every schema document D and registry R such that every
`$ref` value occurring anywhere in D is a key of R, every mapping node of D
carrying a `$ref` key carries no other key, and every fragment of R is a
unique-key dict containing no resolvable `$ref`, the document returned by
`resolve_references` contains no remaining mapping node with a `$ref` key
whose value is a key of R. -/
theorem c1_resolve_clears_resolvable_refs (registry : Registry) (j : JSON)
    (hreg : fragsOK registry) (h1 : allRefsResolvable registry j = true)
    (h2 : refNodesSingleton j = true) :
    hasResolvableRef registry (resolve_references registry j) = false :=
  resolveClearsAux registry hreg j h1 h2

/-- Registry for the C1 witness: plain reference-free fragments. -/
def regC1w : Registry := [("a", [("x", JSON.null)]), ("b", [])]

/-- Document for the C1 witness: resolvable singleton reference nodes nested
under a dict key and inside a list. -/
def docC1w : JSON :=
  .obj [("y", .obj [("$ref", .str "a")]), ("z", .arr [.obj [("$ref", .str "b")], .num 3])]

/-- C1 (witness): the amended theorem applied to a concrete document and
registry satisfying its hypotheses. -/
theorem c1_witness :
    hasResolvableRef regC1w (resolve_references regC1w docC1w) = false :=
  c1_resolve_clears_resolvable_refs regC1w docC1w (by unfold fragsOK; decide) rfl rfl

/-! Claim C4. -/

/-- C4 (counterexample): the claim fails as stated when the registry fragment
itself carries a `$ref` key.  Resolving the node with `$ref` value "a"
against a registry whose fragment for "a" contains a `$ref` binding returns
a node that still has a `$ref` key (the one merged in from the fragment). -/
theorem c4_counterexample :
    lookupObj
      (objFields (resolve_references [("a", [("$ref", JSON.str "b")])]
        (.obj [("$ref", JSON.str "a")]))) "$ref" = some (JSON.str "b") :=
  rfl

/-- C4 (amended): whenever `resolve_references` visits a dict node with a
`$ref` key whose value v is a key of the registry, and the fragment
registry[v] is a unique-key dict that itself carries no `$ref` key, the
returned node has no `$ref` key and contains every key/value pair of the
fragment, the fragment value winning on any key present in both. -/
theorem c4_merge_semantics (registry : Registry) (fields frag : Fields)
    (v : String) (hlk : lookupObj fields "$ref" = some (.str v))
    (hregv : lookupReg registry v = some frag)
    (hnodupF : (fields.map Prod.fst).Nodup)
    (hnodupG : (frag.map Prod.fst).Nodup)
    (hfragNoRef : lookupObj frag "$ref" = none) :
    lookupObj (objFields (resolve_references registry (.obj fields))) "$ref" = none
      ∧ ∀ k w, lookupObj frag k = some w →
          lookupObj (objFields (resolve_references registry (.obj fields))) k
            = some w := by
  rw [resolve_obj_ref registry fields v frag hlk hregv]
  constructor
  · show lookupObj (dictUpdate (eraseKey fields "$ref") frag) "$ref" = none
    rw [lookupObj_dictUpdate_of_not_mem _ _ _
      ((lookupObj_eq_none_iff _ _).mp hfragNoRef)]
    exact lookupObj_eraseKey_self fields _ hnodupF
  · intro k w hw
    show lookupObj (dictUpdate (eraseKey fields "$ref") frag) k = some w
    exact lookupObj_dictUpdate_of_lookup frag _ k w hnodupG hw

/-- C4 (witness): concrete merge in which the original node's binding for
"x" collides with the fragment's and the fragment's value wins. -/
theorem c4_witness :
    lookupObj
      (objFields (resolve_references [("a", [("x", JSON.null), ("y", JSON.num 2)])]
        (.obj [("$ref", JSON.str "a"), ("x", JSON.bool true), ("z", JSON.str "s")])))
      "x" = some JSON.null :=
  (c4_merge_semantics [("a", [("x", JSON.null), ("y", JSON.num 2)])]
    [("$ref", JSON.str "a"), ("x", JSON.bool true), ("z", JSON.str "s")]
    [("x", JSON.null), ("y", JSON.num 2)] "a" rfl rfl (by decide) (by decide)
    rfl).2 "x" JSON.null rfl

/-! Claim C10. -/

/-- C10: when `resolve_references` meets a dict node whose `$ref` value is a
key of the registry, it returns the popped-and-merged node directly — no
value of the node (neither pre-existing siblings nor freshly merged fragment
values) is passed through `resolve_references` — and every sibling binding
whose key is not overwritten by the fragment survives verbatim, so a
resolvable `$ref` nested inside a sibling value remains unresolved. -/
theorem c10_no_recursion_after_merge (registry : Registry) (fields : Fields)
    (v : String) (frag : Fields)
    (hlk : lookupObj fields "$ref" = some (.str v))
    (hregv : lookupReg registry v = some frag) :
    resolve_references registry (.obj fields)
        = .obj (dictUpdate (eraseKey fields "$ref") frag)
      ∧ ∀ k w, k ≠ "$ref" → k ∉ frag.map Prod.fst → lookupObj fields k = some w →
          lookupObj (objFields (resolve_references registry (.obj fields))) k
            = some w := by
  refine ⟨resolve_obj_ref registry fields v frag hlk hregv, ?_⟩
  intro k w hkref hkfrag hlkk
  rw [resolve_obj_ref registry fields v frag hlk hregv]
  show lookupObj (dictUpdate (eraseKey fields "$ref") frag) k = some w
  rw [lookupObj_dictUpdate_of_not_mem _ _ _ hkfrag,
    lookupObj_eraseKey_ne _ _ _ hkref, hlkk]

/-- C10 (witness): a resolvable `$ref` node sitting under the sibling key
"x" of a resolved reference node survives unresolved in the output. -/
theorem c10_witness :
    lookupObj
      (objFields (resolve_references [("a", [])]
        (.obj [("$ref", JSON.str "a"), ("x", JSON.obj [("$ref", JSON.str "a")])])))
      "x" = some (JSON.obj [("$ref", JSON.str "a")]) :=
  (c10_no_recursion_after_merge [("a", [])]
    [("$ref", JSON.str "a"), ("x", JSON.obj [("$ref", JSON.str "a")])] "a" []
    rfl rfl).2 "x" (JSON.obj [("$ref", JSON.str "a")])
    (by decide) (by decide) rfl

/-! Claim C5. -/

mutual
/-- Faithful fallible embedding of `resolve_references` (validation.py
lines 35-49) making the error path of the guard explicit: the membership
test of the `$ref` value against the registry on line 37 hashes that value,
so a dict- or list-valued `$ref` raises TypeError before any branch runs.
On every other input this function runs the same branches as
`resolve_references`, propagating errors raised further down the tree (the
dict and list comprehensions evaluate in order and let the first exception
escape). -/
def resolveChecked (registry : Registry) : JSON → Except String JSON
  | .obj fields =>
      match lookupObj fields "$ref" with
      | some (.str v) =>
          match lookupReg registry v with
          | some fragment =>
              .ok (.obj (dictUpdate (eraseKey fields "$ref") fragment))
          | none =>
              match resolveCheckedFields registry fields with
              | .error e => .error e
              | .ok out => .ok (.obj out)
      | some (.obj _) => .error "TypeError: unhashable type: dict"
      | some (.arr _) => .error "TypeError: unhashable type: list"
      | some _ =>
          match resolveCheckedFields registry fields with
          | .error e => .error e
          | .ok out => .ok (.obj out)
      | none =>
          match resolveCheckedFields registry fields with
          | .error e => .error e
          | .ok out => .ok (.obj out)
  | .arr items =>
      match resolveCheckedItems registry items with
      | .error e => .error e
      | .ok out => .ok (.arr out)
  | other => .ok other

/-- List part of `resolveChecked`. -/
def resolveCheckedItems (registry : Registry) :
    List JSON → Except String (List JSON)
  | [] => .ok []
  | item :: rest =>
      match resolveChecked registry item with
      | .error e => .error e
      | .ok i =>
          match resolveCheckedItems registry rest with
          | .error e => .error e
          | .ok r => .ok (i :: r)

/-- Dict part of `resolveChecked`. -/
def resolveCheckedFields (registry : Registry) : Fields → Except String Fields
  | [] => .ok []
  | (k, v) :: rest =>
      match resolveChecked registry v with
      | .error e => .error e
      | .ok w =>
          match resolveCheckedFields registry rest with
          | .error e => .error e
          | .ok r => .ok ((k, w) :: r)
end

/-! Equations characterising `resolveChecked` on a dict node, one per branch
of the guard, mirroring the equations for `resolve_references`. -/

theorem resolveChecked_obj_ref (registry : Registry) (fields : Fields)
    (v : String) (frag : Fields)
    (hlk : lookupObj fields "$ref" = some (.str v))
    (hregv : lookupReg registry v = some frag) :
    resolveChecked registry (.obj fields)
      = .ok (.obj (dictUpdate (eraseKey fields "$ref") frag)) := by
  simp only [resolveChecked, hlk, hregv]

theorem resolveChecked_obj_noref (registry : Registry) (fields : Fields)
    (hlk : lookupObj fields "$ref" = none) :
    resolveChecked registry (.obj fields)
      = Except.map JSON.obj (resolveCheckedFields registry fields) := by
  cases hx : resolveCheckedFields registry fields <;>
    simp only [resolveChecked, hlk, hx, Except.map]

theorem resolveChecked_obj_unresolved (registry : Registry) (fields : Fields)
    (v : String) (hlk : lookupObj fields "$ref" = some (.str v))
    (hregv : lookupReg registry v = none) :
    resolveChecked registry (.obj fields)
      = Except.map JSON.obj (resolveCheckedFields registry fields) := by
  cases hx : resolveCheckedFields registry fields <;>
    simp only [resolveChecked, hlk, hregv, hx, Except.map]

theorem resolveChecked_obj_nonstr_scalar (registry : Registry)
    (fields : Fields) (w : JSON) (hlk : lookupObj fields "$ref" = some w)
    (hscalar : isScalar w = true) (hns : ∀ s, w ≠ .str s) :
    resolveChecked registry (.obj fields)
      = Except.map JSON.obj (resolveCheckedFields registry fields) := by
  cases w with
  | str s => exact absurd rfl (hns s)
  | null =>
      cases hx : resolveCheckedFields registry fields <;>
        simp only [resolveChecked, hlk, hx, Except.map]
  | bool b =>
      cases hx : resolveCheckedFields registry fields <;>
        simp only [resolveChecked, hlk, hx, Except.map]
  | num q =>
      cases hx : resolveCheckedFields registry fields <;>
        simp only [resolveChecked, hlk, hx, Except.map]
  | arr items => exact Bool.noConfusion hscalar
  | obj fs => exact Bool.noConfusion hscalar

theorem resolveChecked_obj_dictref (registry : Registry) (fields : Fields)
    (fs : Fields) (hlk : lookupObj fields "$ref" = some (.obj fs)) :
    resolveChecked registry (.obj fields)
      = .error "TypeError: unhashable type: dict" := by
  simp only [resolveChecked, hlk]

theorem resolveChecked_obj_listref (registry : Registry) (fields : Fields)
    (its : List JSON) (hlk : lookupObj fields "$ref" = some (.arr its)) :
    resolveChecked registry (.obj fields)
      = .error "TypeError: unhashable type: list" := by
  simp only [resolveChecked, hlk]

theorem resolveChecked_arr (registry : Registry) (items : List JSON) :
    resolveChecked registry (.arr items)
      = Except.map JSON.arr (resolveCheckedItems registry items) := by
  cases hx : resolveCheckedItems registry items <;>
    simp only [resolveChecked, hx, Except.map]

theorem resolveChecked_scalar (registry : Registry) (w : JSON)
    (hscalar : isScalar w = true) : resolveChecked registry w = .ok w := by
  cases w with
  | null => rfl
  | bool b => rfl
  | num q => rfl
  | str s => rfl
  | arr items => exact Bool.noConfusion hscalar
  | obj fs => exact Bool.noConfusion hscalar

mutual
/-- Wherever the fallible embedding returns a document, the total
`resolve_references` computes that same document: the two embeddings agree
away from the TypeError path. -/
theorem resolveCheckedAgree (registry : Registry) :
    ∀ j out, resolveChecked registry j = .ok out →
      resolve_references registry j = out
  | .null, out, h => by
      have h2 : (Except.ok JSON.null : Except String JSON) = .ok out := h
      injection h2 with h3
  | .bool b, out, h => by
      have h2 : (Except.ok (JSON.bool b) : Except String JSON) = .ok out := h
      injection h2 with h3
  | .num q, out, h => by
      have h2 : (Except.ok (JSON.num q) : Except String JSON) = .ok out := h
      injection h2 with h3
  | .str s, out, h => by
      have h2 : (Except.ok (JSON.str s) : Except String JSON) = .ok out := h
      injection h2 with h3
  | .arr items, out, h => by
      rw [resolveChecked_arr] at h
      cases hx : resolveCheckedItems registry items with
      | error e =>
          rw [hx] at h
          have h2 : (Except.error e : Except String JSON) = .ok out := h
          exact Except.noConfusion h2
      | ok outs =>
          rw [hx] at h
          have h2 : (Except.ok (JSON.arr outs) : Except String JSON)
              = .ok out := h
          injection h2 with h3
          cases h3
          rw [resolve_references,
            resolveCheckedAgreeItems registry items outs hx]
  | .obj fields, out, h => by
      cases hlk : lookupObj fields "$ref" with
      | none =>
          rw [resolveChecked_obj_noref registry fields hlk] at h
          cases hx : resolveCheckedFields registry fields with
          | error e =>
              rw [hx] at h
              have h2 : (Except.error e : Except String JSON) = .ok out := h
              exact Except.noConfusion h2
          | ok outf =>
              rw [hx] at h
              have h2 : (Except.ok (JSON.obj outf) : Except String JSON)
                  = .ok out := h
              injection h2 with h3
              cases h3
              rw [resolve_obj_noref registry fields hlk,
                resolveCheckedAgreeFields registry fields outf hx]
      | some w =>
          cases w with
          | str v =>
              cases hreg : lookupReg registry v with
              | some frag =>
                  rw [resolveChecked_obj_ref registry fields v frag hlk hreg]
                    at h
                  have h2 : (Except.ok
                      (JSON.obj (dictUpdate (eraseKey fields "$ref") frag)) :
                      Except String JSON) = .ok out := h
                  injection h2 with h3
                  cases h3
                  exact resolve_obj_ref registry fields v frag hlk hreg
              | none =>
                  rw [resolveChecked_obj_unresolved registry fields v hlk hreg]
                    at h
                  cases hx : resolveCheckedFields registry fields with
                  | error e =>
                      rw [hx] at h
                      have h2 : (Except.error e : Except String JSON)
                          = .ok out := h
                      exact Except.noConfusion h2
                  | ok outf =>
                      rw [hx] at h
                      have h2 : (Except.ok (JSON.obj outf) : Except String JSON)
                          = .ok out := h
                      injection h2 with h3
                      cases h3
                      rw [resolve_obj_unresolved registry fields v hlk hreg,
                        resolveCheckedAgreeFields registry fields outf hx]
          | obj fs =>
              rw [resolveChecked_obj_dictref registry fields fs hlk] at h
              have h2 : (Except.error "TypeError: unhashable type: dict" :
                  Except String JSON) = .ok out := h
              exact Except.noConfusion h2
          | arr its =>
              rw [resolveChecked_obj_listref registry fields its hlk] at h
              have h2 : (Except.error "TypeError: unhashable type: list" :
                  Except String JSON) = .ok out := h
              exact Except.noConfusion h2
          | null =>
              rw [resolveChecked_obj_nonstr_scalar registry fields _ hlk rfl
                (fun s hh => JSON.noConfusion hh)] at h
              cases hx : resolveCheckedFields registry fields with
              | error e =>
                  rw [hx] at h
                  have h2 : (Except.error e : Except String JSON) = .ok out := h
                  exact Except.noConfusion h2
              | ok outf =>
                  rw [hx] at h
                  have h2 : (Except.ok (JSON.obj outf) : Except String JSON)
                      = .ok out := h
                  injection h2 with h3
                  cases h3
                  rw [resolve_obj_nonstr_ref registry fields _ hlk
                    (fun s hh => JSON.noConfusion hh),
                    resolveCheckedAgreeFields registry fields outf hx]
          | bool b =>
              rw [resolveChecked_obj_nonstr_scalar registry fields _ hlk rfl
                (fun s hh => JSON.noConfusion hh)] at h
              cases hx : resolveCheckedFields registry fields with
              | error e =>
                  rw [hx] at h
                  have h2 : (Except.error e : Except String JSON) = .ok out := h
                  exact Except.noConfusion h2
              | ok outf =>
                  rw [hx] at h
                  have h2 : (Except.ok (JSON.obj outf) : Except String JSON)
                      = .ok out := h
                  injection h2 with h3
                  cases h3
                  rw [resolve_obj_nonstr_ref registry fields _ hlk
                    (fun s hh => JSON.noConfusion hh),
                    resolveCheckedAgreeFields registry fields outf hx]
          | num q =>
              rw [resolveChecked_obj_nonstr_scalar registry fields _ hlk rfl
                (fun s hh => JSON.noConfusion hh)] at h
              cases hx : resolveCheckedFields registry fields with
              | error e =>
                  rw [hx] at h
                  have h2 : (Except.error e : Except String JSON) = .ok out := h
                  exact Except.noConfusion h2
              | ok outf =>
                  rw [hx] at h
                  have h2 : (Except.ok (JSON.obj outf) : Except String JSON)
                      = .ok out := h
                  injection h2 with h3
                  cases h3
                  rw [resolve_obj_nonstr_ref registry fields _ hlk
                    (fun s hh => JSON.noConfusion hh),
                    resolveCheckedAgreeFields registry fields outf hx]

/-- List part of the agreement between the two embeddings. -/
theorem resolveCheckedAgreeItems (registry : Registry) :
    ∀ items outs, resolveCheckedItems registry items = .ok outs →
      resolveItems registry items = outs
  | [], outs, h => by
      have h2 : (Except.ok ([] : List JSON) : Except String (List JSON))
          = .ok outs := h
      injection h2 with h3
  | item :: rest, outs, h => by
      cases hv : resolveChecked registry item with
      | error e =>
          rw [resolveCheckedItems, hv] at h
          have h2 : (Except.error e : Except String (List JSON)) = .ok outs := h
          exact Except.noConfusion h2
      | ok i =>
          rw [resolveCheckedItems, hv] at h
          cases hr : resolveCheckedItems registry rest with
          | error e =>
              rw [hr] at h
              have h2 : (Except.error e : Except String (List JSON))
                  = .ok outs := h
              exact Except.noConfusion h2
          | ok r =>
              rw [hr] at h
              have h2 : (Except.ok (i :: r) : Except String (List JSON))
                  = .ok outs := h
              injection h2 with h3
              cases h3
              rw [resolveItems, resolveCheckedAgree registry item i hv,
                resolveCheckedAgreeItems registry rest r hr]

/-- Dict part of the agreement between the two embeddings. -/
theorem resolveCheckedAgreeFields (registry : Registry) :
    ∀ fields outf, resolveCheckedFields registry fields = .ok outf →
      resolveFields registry fields = outf
  | [], outf, h => by
      have h2 : (Except.ok ([] : Fields) : Except String Fields)
          = .ok outf := h
      injection h2 with h3
  | (k, v) :: rest, outf, h => by
      cases hv : resolveChecked registry v with
      | error e =>
          rw [resolveCheckedFields, hv] at h
          have h2 : (Except.error e : Except String Fields) = .ok outf := h
          exact Except.noConfusion h2
      | ok i =>
          rw [resolveCheckedFields, hv] at h
          cases hr : resolveCheckedFields registry rest with
          | error e =>
              rw [hr] at h
              have h2 : (Except.error e : Except String Fields) = .ok outf := h
              exact Except.noConfusion h2
          | ok r =>
              rw [hr] at h
              have h2 : (Except.ok ((k, i) :: r) : Except String Fields)
                  = .ok outf := h
              injection h2 with h3
              cases h3
              rw [resolveFields, resolveCheckedAgree registry v i hv,
                resolveCheckedAgreeFields registry rest r hr]
end

/-- Every binding of a dict node survives error-free resolution of its
values: if resolving the values returns, each original value resolved
without error and sits, resolved, under its original key. -/
theorem resolveCheckedFields_lookup (registry : Registry) (fields : Fields) :
    ∀ out, resolveCheckedFields registry fields = .ok out →
      ∀ k w, lookupObj fields k = some w →
        ∃ w2, resolveChecked registry w = .ok w2 ∧ lookupObj out k = some w2 := by
  induction fields with
  | nil =>
      intro out h k w hk
      exact absurd hk (by simp [lookupObj])
  | cons p rest ih =>
      obtain ⟨k1, v1⟩ := p
      intro out h k w hk
      cases hv : resolveChecked registry v1 with
      | error e =>
          rw [resolveCheckedFields, hv] at h
          have h2 : (Except.error e : Except String Fields) = .ok out := h
          exact Except.noConfusion h2
      | ok i =>
          rw [resolveCheckedFields, hv] at h
          cases hr : resolveCheckedFields registry rest with
          | error e =>
              rw [hr] at h
              have h2 : (Except.error e : Except String Fields) = .ok out := h
              exact Except.noConfusion h2
          | ok r =>
              rw [hr] at h
              have h2 : (Except.ok ((k1, i) :: r) : Except String Fields)
                  = .ok out := h
              injection h2 with h3
              cases h3
              rw [lookupObj] at hk
              by_cases hkk : k1 = k
              · rw [if_pos hkk] at hk
                injection hk with h4
                cases h4
                exact ⟨i, hv, by rw [lookupObj, if_pos hkk]⟩
              · rw [if_neg hkk] at hk
                obtain ⟨w2, hw2, hlk2⟩ := ih r hr k w hk
                refine ⟨w2, hw2, ?_⟩
                rw [lookupObj, if_neg hkk]
                exact hlk2

/-- C5 (counterexample): the claim fails as stated, through the error path:
for a node whose `$ref` value is itself a dict (hence absent from the
string-keyed registry), the membership test of that value against the
registry hashes the dict and raises TypeError, so `resolve_references`
raises instead of returning the node with its `$ref` entry unchanged. -/
theorem c5_counterexample :
    resolveChecked [("a", [("x", JSON.null)])]
      (.obj [("$ref", JSON.obj [("$ref", JSON.str "a")])])
      = .error "TypeError: unhashable type: dict" :=
  rfl

/-- C5 (amended): for every document containing a mapping node whose `$ref`
value is a hashable scalar absent from the registry (a string that is not a
registry key, a number, a boolean or None), the `$ref` guard raises no
error — the node is resolved through the non-reference branch — and
whenever resolution of the node's values returns, `resolve_references`
returns the node with its `$ref` entry (both key and value) unchanged.  A
dict- or list-valued `$ref` raises TypeError instead (see
`c5_counterexample`). -/
theorem c5_hashable_scalar_ref_untouched (registry : Registry)
    (fields : Fields) (w : JSON) (hlk : lookupObj fields "$ref" = some w)
    (hscalar : isScalar w = true)
    (habsent : ∀ s, w = .str s → lookupReg registry s = none) :
    resolveChecked registry (.obj fields)
        = Except.map JSON.obj (resolveCheckedFields registry fields)
      ∧ ∀ out, resolveCheckedFields registry fields = .ok out →
          resolve_references registry (.obj fields) = .obj out
            ∧ lookupObj out "$ref" = some w := by
  have heq : resolveChecked registry (.obj fields)
      = Except.map JSON.obj (resolveCheckedFields registry fields) := by
    cases w with
    | str s =>
        exact resolveChecked_obj_unresolved registry fields s hlk
          (habsent s rfl)
    | null =>
        exact resolveChecked_obj_nonstr_scalar registry fields _ hlk rfl
          (fun s hh => JSON.noConfusion hh)
    | bool b =>
        exact resolveChecked_obj_nonstr_scalar registry fields _ hlk rfl
          (fun s hh => JSON.noConfusion hh)
    | num q =>
        exact resolveChecked_obj_nonstr_scalar registry fields _ hlk rfl
          (fun s hh => JSON.noConfusion hh)
    | arr items => exact Bool.noConfusion hscalar
    | obj fs => exact Bool.noConfusion hscalar
  refine ⟨heq, ?_⟩
  intro out hout
  constructor
  · apply resolveCheckedAgree registry (.obj fields) (.obj out)
    rw [heq, hout]
    rfl
  · obtain ⟨w2, hw2, hlk2⟩ :=
      resolveCheckedFields_lookup registry fields out hout "$ref" w hlk
    rw [resolveChecked_scalar registry w hscalar] at hw2
    injection hw2 with h3
    cases h3
    exact hlk2

/-- C5 (witness): a node whose `$ref` value is the non-key string "missing"
resolves without error and comes back with the `$ref` entry — key and
value — unchanged. -/
theorem c5_witness :
    resolve_references [("a", [("x", JSON.null)])]
        (.obj [("$ref", JSON.str "missing"), ("y", JSON.num 1)])
        = .obj [("$ref", JSON.str "missing"), ("y", JSON.num 1)]
      ∧ lookupObj [("$ref", JSON.str "missing"), ("y", JSON.num 1)] "$ref"
        = some (JSON.str "missing") :=
  (c5_hashable_scalar_ref_untouched [("a", [("x", JSON.null)])]
    [("$ref", JSON.str "missing"), ("y", JSON.num 1)] (JSON.str "missing")
    rfl rfl (fun s h => by injection h with h1; cases h1; rfl)).2
    [("$ref", JSON.str "missing"), ("y", JSON.num 1)] rfl

/-! Model of dmm.py. -/

/-- Shallow model of the DMM dataclass (dmm.py lines 26-60): the caller-set
field `bottom_detuning` plus the fields the class fixes with init=False;
fields inherited from the base Channel class are external to the excerpt. -/
structure DMM where
  bottom_detuning : Option ℚ := none
  addressing : String := "Global"
  max_abs_detuning : Option ℚ := none
  max_amp : ℚ := 0
  min_retarget_interval : Option ℕ := none
  fixed_retarget_t : Option ℕ := none
  max_targets : Option ℕ := none

/-- Python truthiness of the optional numeric field `bottom_detuning`:
None and 0 are falsy, every other number is truthy. -/
def pyTruthy : Option ℚ → Bool
  | none => false
  | some q => decide (q ≠ 0)

/-- Modelled from the spec: constructing the frozen dataclass runs
`__post_init__` (dmm.py lines 62-65); the inherited `Channel.__post_init__`
checks only base-class fields absent from the excerpt and is modelled as
passing.  The guard `self.bottom_detuning and self.bottom_detuning > 0`
(short-circuiting on falsy values) raises ValueError
"bottom_detuning must be negative.", in which case the caller observes no
DMM value. -/
def DMM.construct (bottom_detuning : Option ℚ) : Except String DMM :=
  if pyTruthy bottom_detuning && decide (bottom_detuning.getD 0 > 0) then
    .error "bottom_detuning must be negative."
  else
    .ok { bottom_detuning := bottom_detuning }

theorem DMM.construct_pos (q : ℚ) (hq : 0 < q) :
    DMM.construct (some q) = .error "bottom_detuning must be negative." := by
  unfold DMM.construct pyTruthy
  simp [ne_of_gt hq, hq]

theorem DMM.construct_npos (q : ℚ) (hq : ¬0 < q) :
    DMM.construct (some q) = .ok { bottom_detuning := some q } := by
  unfold DMM.construct pyTruthy
  simp [hq]

/-! Claim C6. -/

/-- C6: constructing a DMM with bottom_detuning = 5, or any value strictly
greater than zero, fails with the configuration error
"bottom_detuning must be negative.", so no channel-descriptor value becomes
observable. -/
theorem c6_positive_bottom_detuning_rejected :
    DMM.construct (some 5) = .error "bottom_detuning must be negative."
      ∧ ∀ q : ℚ, 0 < q →
          DMM.construct (some q) = .error "bottom_detuning must be negative." :=
  ⟨DMM.construct_pos 5 (by norm_num), fun q hq => DMM.construct_pos q hq⟩

/-- C6 (witness): the general half of C6 applied at bottom_detuning = 7. -/
theorem c6_witness :
    DMM.construct (some 7) = .error "bottom_detuning must be negative." :=
  c6_positive_bottom_detuning_rejected.2 7 (by norm_num)

/-! Claim C9. -/

/-- C9: constructing a DMM with bottom_detuning = 0 succeeds (0 is falsy in
Python, so the short-circuit skips the check), and more generally the
negativity check fires on no non-positive value. -/
theorem c9_zero_bottom_detuning_accepted :
    DMM.construct (some 0) = .ok { bottom_detuning := some 0 }
      ∧ ∀ q : ℚ, ¬0 < q →
          DMM.construct (some q) = .ok { bottom_detuning := some q } :=
  ⟨DMM.construct_npos 0 (by norm_num), fun q hq => DMM.construct_npos q hq⟩

/-- C9 (witness): the general half of C9 applied at bottom_detuning = -3. -/
theorem c9_witness :
    DMM.construct (some (-3)) = .ok { bottom_detuning := some (-3) } :=
  c9_zero_bottom_detuning_accepted.2 (-3) (by norm_num)

/-! Rounding and pulse validation. -/

/-- Round-half-to-even (the rounding of numpy round) of an exact rational
to an integer: nearest integer, ties to the even neighbour. -/
def roundHalfEven (q : ℚ) : ℤ :=
  if q - ⌊q⌋ < 1/2 then ⌊q⌋
  else if 1/2 < q - ⌊q⌋ then ⌊q⌋ + 1
  else if ⌊q⌋ % 2 = 0 then ⌊q⌋ else ⌊q⌋ + 1

/-- Model of numpy round(x, decimals=6) on exact rationals
(dmm.py line 86). -/
def np_round6 (q : ℚ) : ℚ := (roundHalfEven (q * 1000000) : ℚ) / 1000000

/-- Modelled from the spec: `DMM.validate_pulse` (dmm.py lines 79-95) first
delegates to the base-class `Channel.validate_pulse` — an external
collaborator outside the excerpt, modelled as passing — then rounds the
pulse's detuning samples to 6 decimal places and applies the two
DMM-specific checks in order. -/
def DMM.validate_pulse (dmm : DMM) (detuning_samples : List ℚ) :
    Except String Unit :=
  let round_detuning := detuning_samples.map np_round6
  if round_detuning.any (fun d => decide (0 < d)) then
    .error "The detuning in a DMM must not be positive."
  else if (match dmm.bottom_detuning with
      | some b => round_detuning.any (fun d => decide (d < b))
      | none => false) then
    .error "The detuning goes below the bottom detuning of the DMM."
  else .ok ()

/-- DMM with bottom_detuning = -10, as in claim C3 (its construction
succeeds, see `c3_counterexample`). -/
def dmm10 : DMM := { bottom_detuning := some (-10) }

/-! Claim C3. -/

/-- C3 (counterexample): the claim fails as stated on the sample
-10.0000001: rounded to 6 decimal places it is exactly -10 (the dropped
seventh decimal is 1, so rounding moves the value up to -10.000000), which
is not below the bottom detuning, so `validate_pulse` returns normally
instead of raising. -/
theorem c3_counterexample :
    DMM.construct (some (-10)) = .ok dmm10
      ∧ DMM.validate_pulse dmm10 [-100000001 / 10000000] = .ok () := by
  constructor
  · rfl
  · norm_num [DMM.validate_pulse, np_round6, roundHalfEven, dmm10]

/-- C3 (amended): for the DMM with bottom_detuning = -10, every pulse whose
detuning samples rounded to 6 decimal places all lie in the closed interval
from -10 to 0 validates; a sample of 1e-9 (rounding to 0) validates; a
sample of -10.0000001 (rounding to -10, not -10.000001 as the claim said)
also validates; and a sample of -10.0000006 (rounding to -10.000001, below
-10) raises the ValueError-class bottom-detuning error. -/
theorem c3_validate_pulse_rounding (samples : List ℚ)
    (h : ∀ d ∈ samples, -10 ≤ np_round6 d ∧ np_round6 d ≤ 0) :
    DMM.validate_pulse dmm10 samples = .ok ()
      ∧ DMM.validate_pulse dmm10 [1 / 1000000000] = .ok ()
      ∧ DMM.validate_pulse dmm10 [-100000001 / 10000000] = .ok ()
      ∧ DMM.validate_pulse dmm10 [-100000006 / 10000000]
          = .error "The detuning goes below the bottom detuning of the DMM." := by
  refine ⟨?_, by norm_num [DMM.validate_pulse, np_round6, roundHalfEven, dmm10],
    by norm_num [DMM.validate_pulse, np_round6, roundHalfEven, dmm10],
    by norm_num [DMM.validate_pulse, np_round6, roundHalfEven, dmm10]⟩
  have hpos : (samples.map np_round6).any (fun d => decide (0 < d)) = false := by
    rw [List.any_eq_false]
    intro d hd
    rw [List.mem_map] at hd
    obtain ⟨s, hs, rfl⟩ := hd
    simpa using not_lt.mpr (h s hs).2
  have hbot : (samples.map np_round6).any (fun d => decide (d < -10)) = false := by
    rw [List.any_eq_false]
    intro d hd
    rw [List.mem_map] at hd
    obtain ⟨s, hs, rfl⟩ := hd
    simpa using not_lt.mpr (h s hs).1
  simp [DMM.validate_pulse, dmm10, hpos, hbot]

/-- Evaluation of the rounding at -5 (used by the C3 witness). -/
theorem np_round6_neg_five : -10 ≤ np_round6 (-5) ∧ np_round6 (-5) ≤ 0 := by
  norm_num [np_round6, roundHalfEven]

/-- C3 (witness): the quantified half of the amended C3 applied to the
one-sample pulse -5 (which rounds to itself, inside the interval). -/
theorem c3_witness : DMM.validate_pulse dmm10 [-5] = .ok () :=
  (c3_validate_pulse_rounding [-5]
    (fun d hd => by rw [List.mem_singleton] at hd; rw [hd]; exact np_round6_neg_five)).1

/-! Naming helpers of dmm.py (lines 98-131). -/

/-- Python str.split("_") on the character list of a string: split at every
underscore, keeping empty pieces. -/
def splitUnderscore : List Char → List (List Char)
  | [] => [[]]
  | c :: rest =>
      match splitUnderscore rest with
      | [] => [[]]
      | g :: gs => if c = '_' then [] :: g :: gs else (c :: g) :: gs

/-- Python "_".join on a list of character lists. -/
def joinUnderscore : List (List Char) → List Char
  | [] => []
  | [g] => g
  | g :: gs => g ++ '_' :: joinUnderscore gs

/-- Shallow embedding of `_dmm_id_from_name` (dmm.py lines 98-110):
the join with "_" of the first two "_"-separated pieces of the name. -/
def _dmm_id_from_name (dmm_name : String) : String :=
  ⟨joinUnderscore ((splitUnderscore dmm_name.data).take 2)⟩

/-- Shallow embedding of `_get_dmm_name` (dmm.py lines 113-131): count the
channels whose name converts back to `dmm_id`, return `dmm_id` itself if
there are none and `dmm_id` extended with an underscore and the count
otherwise. -/
def _get_dmm_name (dmm_id : String) (channels : List String) : String :=
  let dmm_count :=
    (channels.filter (fun key => _dmm_id_from_name key == dmm_id)).length
  if dmm_count = 0 then dmm_id
  else dmm_id ++ "_" ++ toString dmm_count

theorem splitUnderscore_ne_nil (l : List Char) : splitUnderscore l ≠ [] := by
  induction l with
  | nil => simp [splitUnderscore]
  | cons c rest ih =>
      rw [splitUnderscore]
      cases h : splitUnderscore rest with
      | nil => exact absurd h ih
      | cons g gs => by_cases hc : c = '_' <;> simp [hc]

theorem splitUnderscore_cons_of_ne_nil (l : List Char) :
    ∃ g gs, splitUnderscore l = g :: gs := by
  cases h : splitUnderscore l with
  | nil => exact absurd h (splitUnderscore_ne_nil l)
  | cons g gs => exact ⟨g, gs, rfl⟩

theorem splitUnderscore_no_sep (l : List Char) (h : '_' ∉ l) :
    splitUnderscore l = [l] := by
  induction l with
  | nil => rfl
  | cons c rest ih =>
      simp only [List.mem_cons] at h
      push_neg at h
      rw [splitUnderscore, ih h.2]
      have hc : ¬c = '_' := fun hcc => h.1 hcc.symm
      simp [hc]

theorem splitUnderscore_append (xs ys : List Char) (h : '_' ∉ ys) :
    splitUnderscore (xs ++ '_' :: ys) = splitUnderscore xs ++ [ys] := by
  induction xs with
  | nil =>
      have h1 : splitUnderscore ('_' :: ys) = [] :: [ys] := by
        rw [splitUnderscore, splitUnderscore_no_sep ys h]
        simp
      simpa [splitUnderscore] using h1
  | cons c xs ih =>
      rw [List.cons_append, splitUnderscore, ih]
      obtain ⟨g, gs, hg⟩ := splitUnderscore_cons_of_ne_nil xs
      rw [hg, splitUnderscore, hg, List.cons_append]
      by_cases hc : c = '_' <;> simp [hc]

theorem joinUnderscore_splitUnderscore (l : List Char) :
    joinUnderscore (splitUnderscore l) = l := by
  induction l with
  | nil => rfl
  | cons c rest ih =>
      rw [splitUnderscore]
      obtain ⟨g, gs, hg⟩ := splitUnderscore_cons_of_ne_nil rest
      rw [hg] at ih ⊢
      show joinUnderscore (if c = '_' then [] :: g :: gs else (c :: g) :: gs)
        = c :: rest
      by_cases hc : c = '_'
      · subst hc
        rw [if_pos rfl]
        show ([] : List Char) ++ '_' :: joinUnderscore (g :: gs) = '_' :: rest
        rw [List.nil_append, ih]
      · rw [if_neg hc]
        cases gs with
        | nil =>
            show c :: g = c :: rest
            have : joinUnderscore [g] = g := rfl
            rw [this] at ih
            rw [ih]
        | cons g2 gs2 =>
            show (c :: g) ++ '_' :: joinUnderscore (g2 :: gs2) = c :: rest
            rw [List.cons_append]
            exact congrArg (c :: ·) ih

theorem digitChar_ne_underscore (n : ℕ) : Nat.digitChar n ≠ '_' := by
  by_cases h16 : n < 16
  · interval_cases n <;> decide
  · intro h
    unfold Nat.digitChar at h
    iterate 16 rw [if_neg (by omega)] at h
    exact absurd h (by decide)

theorem toDigitsCore_mem (b : ℕ) (fuel : ℕ) :
    ∀ (n : ℕ) (acc : List Char), ∀ c ∈ Nat.toDigitsCore b fuel n acc,
      c ∈ acc ∨ ∃ m, c = Nat.digitChar m := by
  induction fuel with
  | zero => intro n acc c hc; exact Or.inl hc
  | succ fuel ih =>
      intro n acc c hc
      rw [Nat.toDigitsCore] at hc
      by_cases hz : n / b = 0
      · rw [if_pos hz] at hc
        rcases List.mem_cons.mp hc with hd | hd
        · exact Or.inr ⟨n % b, hd⟩
        · exact Or.inl hd
      · rw [if_neg hz] at hc
        rcases ih (n / b) (Nat.digitChar (n % b) :: acc) c hc with hd | hd
        · rcases List.mem_cons.mp hd with he | he
          · exact Or.inr ⟨n % b, he⟩
          · exact Or.inl he
        · exact Or.inr hd

theorem toString_nat_no_underscore (n : ℕ) : '_' ∉ (toString n).data := by
  intro hmem
  have h2 : '_' ∈ Nat.toDigits 10 n := hmem
  rcases toDigitsCore_mem 10 (n + 1) n [] '_' h2 with h | ⟨m, hm⟩
  · simp at h
  · exact digitChar_ne_underscore m hm.symm

/-- Round-trip of the naming scheme for ids made of exactly two
"_"-separated pieces (the shape of the real dmm ids such as "dmm_0"):
whatever name `_get_dmm_name` generates, `_dmm_id_from_name` recovers the
id. -/
theorem dmm_name_roundtrip_aux (dmm_id : String) (channels : List String)
    (h : (splitUnderscore dmm_id.data).length = 2) :
    _dmm_id_from_name (_get_dmm_name dmm_id channels) = dmm_id := by
  rw [_get_dmm_name]
  by_cases hc :
      (channels.filter (fun key => _dmm_id_from_name key == dmm_id)).length = 0
  · rw [if_pos hc, _dmm_id_from_name,
      List.take_of_length_le (le_of_eq h), joinUnderscore_splitUnderscore]
  · rw [if_neg hc, _dmm_id_from_name]
    have hdata :
        (dmm_id ++ "_"
          ++ toString (channels.filter
              (fun key => _dmm_id_from_name key == dmm_id)).length).data
          = dmm_id.data ++ '_' :: (toString (channels.filter
              (fun key => _dmm_id_from_name key == dmm_id)).length).data := by
      rw [String.data_append, String.data_append, List.append_assoc]
      rfl
    rw [hdata, splitUnderscore_append _ _ (toString_nat_no_underscore _),
      List.take_left' h, joinUnderscore_splitUnderscore]

/-! Claim C2. -/

/-- C2 (counterexample): the claim fails as stated for the one-piece id
"dmm".  The second generated name "dmm_1" converts back to "dmm_1" (the
converter keeps the first two "_"-separated pieces), not to "dmm"; in
consequence the third call counts only one existing channel for "dmm" and
returns "dmm_1" again instead of the claimed "dmm_2". -/
theorem c2_counterexample :
    _get_dmm_name "dmm" ["dmm", "dmm_1"] = "dmm_1"
      ∧ _dmm_id_from_name "dmm_1" = "dmm_1"
      ∧ _dmm_id_from_name "dmm_1" ≠ "dmm" := by
  refine ⟨rfl, rfl, ?_⟩
  decide

/-- C2 (amended): for a two-piece id such as "dmm_0" (the shape the
surrounding code generates), three successive calls to `_get_dmm_name`
starting from an empty channel list yield "dmm_0", "dmm_0_1", "dmm_0_2",
each of which `_dmm_id_from_name` converts back to "dmm_0"; and in general
the conversion round-trips for every name the generator produces from an id
that splits into exactly two "_"-separated pieces. -/
theorem c2_dmm_name_roundtrip :
    _get_dmm_name "dmm_0" [] = "dmm_0"
      ∧ _get_dmm_name "dmm_0" ["dmm_0"] = "dmm_0_1"
      ∧ _get_dmm_name "dmm_0" ["dmm_0", "dmm_0_1"] = "dmm_0_2"
      ∧ _dmm_id_from_name "dmm_0" = "dmm_0"
      ∧ _dmm_id_from_name "dmm_0_1" = "dmm_0"
      ∧ _dmm_id_from_name "dmm_0_2" = "dmm_0"
      ∧ ∀ (dmm_id : String) (channels : List String),
          (splitUnderscore dmm_id.data).length = 2 →
          _dmm_id_from_name (_get_dmm_name dmm_id channels) = dmm_id :=
  ⟨rfl, rfl, rfl, rfl, rfl, rfl,
    fun dmm_id channels h => dmm_name_roundtrip_aux dmm_id channels h⟩

/-- C2 (witness): the general round-trip applied to the id "a_b" over a
channel list already containing a generated name. -/
theorem c2_witness : _dmm_id_from_name (_get_dmm_name "a_b" ["a_b"]) = "a_b" :=
  c2_dmm_name_roundtrip.2.2.2.2.2.2 "a_b" ["a_b"] (by decide)

/-! Model of validate_abstract_repr (validation.py lines 58-69 and 91-111). -/

/-- The five object kinds accepted by `validate_abstract_repr`
(validation.py lines 55 and 60). -/
inductive SchemaName where
  | sequence : SchemaName
  | device : SchemaName
  | layout : SchemaName
  | register : SchemaName
  | noise : SchemaName

/-- The two error kinds a call to `validate_abstract_repr` can surface: a
JSON-syntax failure from `json.loads`, or a schema-validation failure from
the backend validator.  They are distinct constructors, as the two Python
exception classes are distinct types. -/
inductive AbstractReprError (ε φ : Type) where
  | jsonSyntaxError (e : ε) : AbstractReprError ε φ
  | schemaValidationError (f : φ) : AbstractReprError ε φ

/-- Modelled from the spec: `json.loads` and the precompiled
`fastjsonschema` validators are external collaborators, taken as parameters
`jsonLoads` and `validators`.  This is the fast-path
`validate_abstract_repr` (validation.py lines 58-69): parse the string
first — a parse failure propagates as the JSON-syntax error kind — then run
the precompiled validator for `name` on the parsed value, returning nothing
on success. -/
def validate_abstract_repr_fast {ε φ : Type}
    (jsonLoads : String → Except ε JSON)
    (validators : SchemaName → JSON → Except φ Unit)
    (obj_str : String) (name : SchemaName) :
    Except (AbstractReprError ε φ) Unit :=
  match jsonLoads obj_str with
  | .error e => .error (.jsonSyntaxError e)
  | .ok obj =>
      match validators name obj with
      | .error f => .error (.schemaValidationError f)
      | .ok _ => .ok ()

/-- Modelled from the spec: `json.loads`, `jsonschema.validate` and the
schema documents are external collaborators, taken as parameters.  This is
the reference-aware `validate_abstract_repr` (validation.py lines 91-111):
parse the string first, then validate the parsed value against the raw
schema for `name` (the registry / legacy-resolver plumbing is inside the
`jsonschemaValidate` parameter). -/
def validate_abstract_repr_ref {ε φ : Type}
    (jsonLoads : String → Except ε JSON)
    (jsonschemaValidate : JSON → JSON → Except φ Unit)
    (schemas : SchemaName → JSON)
    (obj_str : String) (name : SchemaName) :
    Except (AbstractReprError ε φ) Unit :=
  match jsonLoads obj_str with
  | .error e => .error (.jsonSyntaxError e)
  | .ok obj =>
      match jsonschemaValidate obj (schemas name) with
      | .error f => .error (.schemaValidationError f)
      | .ok _ => .ok ()

/-! Claim C7. -/

/-- C7: under both backends, `validate_abstract_repr` parses the input text
first: on malformed input (whatever error `json.loads` reports) both
backends fail with the JSON-syntax error kind, which is distinct from the
schema-validation error kind; on a conforming input (parse succeeds and the
backend validator accepts) both return normally with no output. -/
theorem c7_parse_first_distinct_errors {ε φ : Type}
    (jsonLoads : String → Except ε JSON)
    (validators : SchemaName → JSON → Except φ Unit)
    (jsonschemaValidate : JSON → JSON → Except φ Unit)
    (schemas : SchemaName → JSON) (obj_str : String) (name : SchemaName) :
    (∀ e, jsonLoads obj_str = .error e →
      validate_abstract_repr_fast jsonLoads validators obj_str name
          = .error (.jsonSyntaxError e)
        ∧ validate_abstract_repr_ref jsonLoads jsonschemaValidate schemas
            obj_str name = .error (.jsonSyntaxError e)
        ∧ ∀ f : φ, (AbstractReprError.jsonSyntaxError e : AbstractReprError ε φ)
            ≠ .schemaValidationError f)
      ∧ (∀ obj, jsonLoads obj_str = .ok obj →
          validators name obj = .ok () →
          validate_abstract_repr_fast jsonLoads validators obj_str name = .ok ())
      ∧ (∀ obj, jsonLoads obj_str = .ok obj →
          jsonschemaValidate obj (schemas name) = .ok () →
          validate_abstract_repr_ref jsonLoads jsonschemaValidate schemas
            obj_str name = .ok ()) := by
  refine ⟨?_, ?_, ?_⟩
  · intro e he
    refine ⟨?_, ?_, ?_⟩
    · rw [validate_abstract_repr_fast, he]
    · rw [validate_abstract_repr_ref, he]
    · intro f h
      exact AbstractReprError.noConfusion h
  · intro obj hobj hval
    simp only [validate_abstract_repr_fast, hobj, hval]
  · intro obj hobj hval
    simp only [validate_abstract_repr_ref, hobj, hval]

/-- C7 (witness): the theorem applied to a concrete parser that fails on the
empty string and succeeds otherwise, with validators that accept
everything. -/
theorem c7_witness :
    validate_abstract_repr_fast
      (fun s => if s = "" then Except.error () else Except.ok JSON.null :
        String → Except Unit JSON)
      (fun _ _ => Except.ok () : SchemaName → JSON → Except Unit Unit) ""
      SchemaName.device
      = .error (.jsonSyntaxError ()) :=
  ((c7_parse_first_distinct_errors
    (fun s => if s = "" then Except.error () else Except.ok JSON.null :
      String → Except Unit JSON)
    (fun _ _ => Except.ok () : SchemaName → JSON → Except Unit Unit)
    (fun _ _ => Except.ok ()) (fun _ => JSON.null) ""
    SchemaName.device).1 () rfl).1
